import Mathlib

/-!
Verification development for the repository's query-composition core: the
`BookFilter`/`AuthorFilter` filter-specification resolvers
(`advanced-api-project/api/filters.py`), the list-view query composers with
free-text search and multi-key ordering (`advanced-api-project/api/views.py`),
the write-boundary validation of `BookSerializer`
(`advanced-api-project/api/serializers.py`), and the query helpers of
`relationship_app/query_samples.py`.

The embedding is executable: strings are manipulated through their character
lists so that every definition reduces inside the kernel; database rows are
records in an explicit `Store` snapshot; the HTTP parameter mapping is an
association list of string pairs (Django's `QueryDict` returns the last value
supplied for a key); numeric query parameters (Django `NumberFilter` /
`DecimalField`) are modelled as integer-valued, which covers every integral
`publication_year` value the endpoints deal in.
-/

/-! ### Character-list string primitives

Python/SQL string operations used by the filters, re-expressed over `List Char`
so they compute by `decide`/`rfl`.  `lowerChars` is Python `str.lower()` as
used by SQL `icontains`; `occursIn` is the substring test; `charsCmp` is the
case-sensitive lexicographic comparison a binary-collation ORDER BY performs.
-/

def lowerChars (s : String) : List Char :=
  s.toList.map Char.toLower

/-- Substring occurrence test on character lists: `occursIn p l` holds when
`p` occurs contiguously inside `l`. -/
def occursIn (p : List Char) : List Char → Bool
  | [] => p.isEmpty
  | c :: rest => p.isPrefixOf (c :: rest) || occursIn p rest

/-- SQL `icontains`: case-insensitive substring match, lowering both sides. -/
def icontains (hay needle : String) : Bool :=
  occursIn (lowerChars needle) (lowerChars hay)

/-- SQL `iexact`: case-insensitive equality, lowering both sides. -/
def iexactMatch (a b : String) : Bool :=
  lowerChars a == lowerChars b

/-- Case-sensitive lexicographic comparison of character lists (binary
collation, as for SQL ORDER BY on a text column). -/
def charsCmp : List Char → List Char → Ordering
  | [], [] => .eq
  | [], _ :: _ => .lt
  | _ :: _, [] => .gt
  | a :: as, b :: bs =>
    if a < b then .lt else if b < a then .gt else charsCmp as bs

/-- Case-sensitive lexicographic comparison of strings. -/
def strCmp (s t : String) : Ordering :=
  charsCmp s.toList t.toList

/-- Python `str.strip()`: drop leading and trailing whitespace. -/
def pyStrip (s : String) : String :=
  String.mk (((s.toList.dropWhile Char.isWhitespace).reverse.dropWhile
    Char.isWhitespace).reverse)

/-- Python `"x".split(',')`: split at every comma, keeping empty pieces. -/
def splitCommaAux : List Char → List Char → List (List Char)
  | [], acc => [acc.reverse]
  | c :: rest, acc =>
    if c == ',' then acc.reverse :: splitCommaAux rest []
    else splitCommaAux rest (c :: acc)

def splitComma (s : String) : List String :=
  (splitCommaAux s.toList []).map String.mk

/-- Python `str.split()` with no argument: split on whitespace runs,
producing no empty pieces. -/
def splitWsAux : List Char → List Char → List (List Char)
  | [], acc => if acc.isEmpty then [] else [acc.reverse]
  | c :: rest, acc =>
    if c.isWhitespace then
      if acc.isEmpty then splitWsAux rest []
      else acc.reverse :: splitWsAux rest []
    else splitWsAux rest (c :: acc)

def splitWs (s : String) : List String :=
  (splitWsAux s.toList []).map String.mk

/-- Digit-string parse used to model integer coercion of query parameters. -/
def parseNat (s : String) : Option Nat :=
  let l := s.toList
  if l.isEmpty || l.any (fun c => !c.isDigit) then none
  else some (l.foldl (fun n c => n * 10 + (c.toNat - 48)) 0)

/-- Integer parse for numeric query parameters (`NumberFilter` values are
modelled as integers; a value that is not an optionally-signed digit string
fails coercion, e.g. `"abc"`). -/
def parseInt (s : String) : Option Int :=
  match s.toList with
  | '-' :: rest => (parseNat (String.mk rest)).map (fun n => -(n : Int))
  | _ => (parseNat s).map (fun n => (n : Int))

/-! ### Data model (`api/models.py`)

`Author` has a `name`; `Book` has `title`, `publication_year` and a
foreign key `author` (stored as the author's primary key, exactly as the
`BookSerializer` exposes it).  A `Store` is the database snapshot the
read-only query layer runs against. -/

structure Author where
  id : Nat
  name : String
deriving DecidableEq, Repr

structure Book where
  id : Nat
  title : String
  publication_year : Int
  author : Nat
deriving DecidableEq, Repr

structure Store where
  authors : List Author
  books : List Book
deriving DecidableEq, Repr

/-- Primary-key lookup on the author table. -/
def authorById (authors : List Author) (aid : Nat) : Option Author :=
  authors.find? (fun a => a.id == aid)

/-- The name reached through the `Book → Author` join (`author__name`);
the foreign key guarantees the author row exists, the empty string is the
join default for a dangling reference. -/
def authorNameD (authors : List Author) (b : Book) : String :=
  match authorById authors b.author with
  | some a => a.name
  | none => ""

/-! ### Request parameters

A request's query parameters are an association list.  Django's `QueryDict`
yields the last value given for a key; a form field whose raw value is the
empty string counts as absent (`EMPTY_VALUES`). -/

def getParam (params : List (String × String)) (key : String) : Option String :=
  ((params.filter (fun p => p.1 == key)).getLast?).map (fun p => p.2)

def getParamNE (params : List (String × String)) (key : String) : Option String :=
  match getParam params key with
  | some v => if v = "" then none else some v
  | none => none

/-! ### Filter specification resolver (`api/filters.py`, `BookFilter`)

The declared filters are `title` (icontains), `author` (`ModelChoiceFilter`
validating the id against the author table), `author_name` (icontains on
`author__name`), `publication_year` (exact), `year_from`/`year_to`
(gte/lte) and the `recent_books` flag.  `Meta.fields` additionally generates
the lookup filters `title__icontains`, `publication_year__gte`,
`publication_year__lte`, `publication_year__gt`, `publication_year__lt`,
`author__name` (exact) and `author__name__icontains`; the generated `exact`
filters for `title`, `publication_year` and `author` are overridden by the
declared ones. -/

structure ResolvedBookFilter where
  title : Option String
  author : Option Nat
  author_name : Option String
  publication_year : Option Int
  year_from : Option Int
  year_to : Option Int
  recent_books : Option Bool
  title__icontains : Option String
  publication_year__gte : Option Int
  publication_year__lte : Option Int
  publication_year__gt : Option Int
  publication_year__lt : Option Int
  author__name : Option String
  author__name__icontains : Option String
deriving DecidableEq, Repr

/-- Django `forms.NullBooleanField` coercion: unrecognized values become
`none` (no constraint) rather than an error. -/
def parseNullBoolean (v : String) : Option Bool :=
  if v = "true" || v = "True" || v = "1" then some true
  else if v = "false" || v = "False" || v = "0" then some false
  else none

/-- Validation of one numeric parameter: a present, non-empty value that is
not an integer contributes the parameter's name to the form's error set. -/
def numErr (params : List (String × String)) (key : String) : List String :=
  match getParamNE params key with
  | none => []
  | some v => match parseInt v with
    | some _ => []
    | none => [key]

/-- Resolved value of one numeric parameter. -/
def numVal (params : List (String × String)) (key : String) : Option Int :=
  match getParamNE params key with
  | none => none
  | some v => parseInt v

/-- The numeric parameters of `BookFilter`, in form-field order. -/
def numericBookParams : List String :=
  ["publication_year", "year_from", "year_to", "publication_year__gte",
   "publication_year__lte", "publication_year__gt", "publication_year__lt"]

/-- `ModelChoiceFilter` coercion for `author`: the raw value must be the
primary key of an existing author row, otherwise the form field reports an
invalid choice for `author`. -/
def authorChoice (authors : List Author) (params : List (String × String)) :
    List String × Option Nat :=
  match getParamNE params "author" with
  | none => ([], none)
  | some v =>
    match parseNat v with
    | none => (["author"], none)
    | some n =>
      match authorById authors n with
      | some _ => ([], some n)
      | none => (["author"], none)

/-- All validation errors of a `BookFilter` form in a single pass: the form
cleans every field and collects every offending parameter name. -/
def bookParamErrors (authors : List Author) (params : List (String × String)) :
    List String :=
  (authorChoice authors params).1 ++
    (numericBookParams.map (fun k => numErr params k)).flatten

/-- The filter-specification resolver for books: either the full error set
(and no records), or the resolved predicate record. -/
def validateBookParams (authors : List Author) (params : List (String × String)) :
    Except (List String) ResolvedBookFilter :=
  let errs := bookParamErrors authors params
  if errs.isEmpty then
    .ok ⟨getParamNE params "title",
         (authorChoice authors params).2,
         getParamNE params "author_name",
         numVal params "publication_year",
         numVal params "year_from",
         numVal params "year_to",
         (match getParamNE params "recent_books" with
          | none => none
          | some v => parseNullBoolean v),
         getParamNE params "title__icontains",
         numVal params "publication_year__gte",
         numVal params "publication_year__lte",
         numVal params "publication_year__gt",
         numVal params "publication_year__lt",
         getParamNE params "author__name",
         getParamNE params "author__name__icontains"⟩
  else .error errs

/-- A single optional predicate: an absent parameter imposes no constraint. -/
def optCheck {α : Type} (o : Option α) (p : α → Bool) : Bool :=
  match o with
  | none => true
  | some x => p x

/-- Conjunction of all resolved predicates of `BookFilter` against one book
row, relative to the author table and the current calendar year (the
`recent_books` method filters on `publication_year >= current_year - 10`
when the flag is true and leaves the queryset unchanged otherwise). -/
def bookMatches (authors : List Author) (cy : Int) (f : ResolvedBookFilter)
    (b : Book) : Bool :=
  optCheck f.title (fun t => icontains b.title t) &&
  optCheck f.author (fun n => b.author == n) &&
  optCheck f.author_name (fun s => icontains (authorNameD authors b) s) &&
  optCheck f.publication_year (fun y => b.publication_year == y) &&
  optCheck f.year_from (fun y => decide (y ≤ b.publication_year)) &&
  optCheck f.year_to (fun y => decide (b.publication_year ≤ y)) &&
  optCheck f.recent_books (fun v => !v || decide (cy - 10 ≤ b.publication_year)) &&
  optCheck f.title__icontains (fun t => icontains b.title t) &&
  optCheck f.publication_year__gte (fun y => decide (y ≤ b.publication_year)) &&
  optCheck f.publication_year__lte (fun y => decide (b.publication_year ≤ y)) &&
  optCheck f.publication_year__gt (fun y => decide (y < b.publication_year)) &&
  optCheck f.publication_year__lt (fun y => decide (b.publication_year < y)) &&
  optCheck f.author__name (fun s => authorNameD authors b == s) &&
  optCheck f.author__name__icontains (fun s => icontains (authorNameD authors b) s)

/-! ### Free-text search (`rest_framework.filters.SearchFilter`)

The `search` parameter is split into terms (commas become spaces, then a
whitespace split); a record is retained when every term matches at least one
searched field.  `BookListView.search_fields` configures `title`
(icontains), `author__name` (icontains), `=title` (iexact) and `@title`.
The `@title` entry maps to the ORM `__search` lookup: on the default
(non-PostgreSQL) database backend that lookup is unregistered, so the ORM
raises `FieldError` for every request carrying at least one search term —
the search stage fails instead of filtering (on PostgreSQL with
`django.contrib.postgres` it would instead add stemmed full-text matches
beyond the substring set).  `searchBooksDefaultBackend` models that actual
behaviour; `bookTermMatch`/`searchBooks` model the substring semantics the
endpoint's own tests (`test_search_functionality`, `test_search_by_title`)
and the spec assert, i.e. the configured fields with the PostgreSQL-only
`@title` entry removed.  For authors the single searched field is `name`
and no such entry exists. -/

def searchTerms (s : String) : List String :=
  splitWs (String.mk (s.toList.map (fun c => if c == ',' then ' ' else c)))

/-- One term against the searched book fields, `@title` excluded: the
per-term OR the tests and the spec assert. -/
def bookTermMatch (authors : List Author) (b : Book) (t : String) : Bool :=
  icontains b.title t ||
  icontains (authorNameD authors b) t ||
  iexactMatch b.title t

/-- The search stage under the intended (test-asserted) semantics, with the
PostgreSQL-only `@title` entry removed. -/
def searchBooks (authors : List Author) (q : Option String) (l : List Book) :
    List Book :=
  match q with
  | none => l
  | some s => l.filter (fun b => (searchTerms s).all (bookTermMatch authors b))

/-- The search stage as the code actually executes on the default backend:
because `search_fields` includes `@title`, the ORM raises `FieldError` as
soon as at least one search term is present (modelled as a request-level
error named `search`); with no term the queryset passes through
untouched. -/
def searchBooksDefaultBackend (q : Option String) (l : List Book) :
    Except (List String) (List Book) :=
  match q with
  | none => .ok l
  | some s => if (searchTerms s).isEmpty then .ok l else .error ["search"]

def searchAuthors (q : Option String) (l : List Author) : List Author :=
  match q with
  | none => l
  | some s => l.filter (fun a => (searchTerms s).all (fun t => icontains a.name t))

/-! ### Ordering (`rest_framework.filters.OrderingFilter`)

The `ordering` parameter is a comma-separated list of field names, each
optionally prefixed with `-` for descending.  Terms are stripped of
surrounding whitespace; a term is kept only when, with all leading dashes
removed, it names one of the view's `ordering_fields`.  If no term survives,
the view's default `ordering` applies.  A surviving term that still begins
with a dash after its direction marker is removed has no resolvable field
(Django raises `FieldError`); the composer reports it as a request error. -/

structure SortKey (φ : Type) where
  field : φ
  desc : Bool
deriving DecidableEq, Repr

def dropDashes (s : String) : String :=
  String.mk (s.toList.dropWhile (fun c => c == '-'))

def orderingTerms (validNames : List String) (s : String) : List String :=
  ((splitComma s).map pyStrip).filter (fun t => validNames.contains (dropDashes t))

def keyOfTerm {φ : Type} (ofName : String → Option φ) (t : String) :
    Option (SortKey φ) :=
  match t.toList with
  | '-' :: rest => (ofName (String.mk rest)).map (fun f => ⟨f, true⟩)
  | _ => (ofName t).map (fun f => ⟨f, false⟩)

def orderingKeys {φ : Type} (ofName : String → Option φ)
    (validNames : List String) (deflt : List (SortKey φ)) (q : Option String) :
    Option (List (SortKey φ)) :=
  match q with
  | none => some deflt
  | some s =>
    let ts := orderingTerms validNames s
    if ts.isEmpty then some deflt else ts.mapM (keyOfTerm ofName)

/-- Direction-adjusted comparison on one sort key: a `-`-prefixed
(descending) key compares in reverse. -/
def dirCmp {φ α : Type} (fcmp : φ → α → α → Ordering) (k : SortKey φ)
    (a b : α) : Ordering :=
  if k.desc then fcmp k.field b a else fcmp k.field a b

/-- Lexicographic multi-key comparison: the first key that separates the two
records decides. -/
def keysCmp {φ α : Type} (fcmp : φ → α → α → Ordering) :
    List (SortKey φ) → α → α → Ordering
  | [], _, _ => .eq
  | k :: ks, a, b =>
    match dirCmp fcmp k a b with
    | .eq => keysCmp fcmp ks a b
    | o => o

/-- The non-strict order induced by the multi-key comparison. -/
def keysLe {φ α : Type} (fcmp : φ → α → α → Ordering)
    (ks : List (SortKey φ)) (a b : α) : Prop :=
  keysCmp fcmp ks a b ≠ Ordering.gt

instance keysLeDec {φ α : Type} (fcmp : φ → α → α → Ordering)
    (ks : List (SortKey φ)) : DecidableRel (keysLe fcmp ks) := fun a b =>
  if h : keysCmp fcmp ks a b = Ordering.gt then
    .isFalse (fun hc => hc h)
  else .isTrue h

/-- ORDER BY: a deterministic stable sort of the record list under the
multi-key comparison (insertion sort, which is stable: records tied on every
key keep their snapshot order). -/
def order_by {φ α : Type} (fcmp : φ → α → α → Ordering)
    (ks : List (SortKey φ)) (l : List α) : List α :=
  l.insertionSort (keysLe fcmp ks)

/-! ### Book list view (`BookListView`)

`filter_backends = [DjangoFilterBackend, SearchFilter, OrderingFilter]`:
the resolver's predicates narrow the snapshot, the search term narrows the
result, the ordering specification sorts it.  `ordering_fields` are `title`,
`publication_year`, `author__name`, `id`; the default ordering is `title`
ascending. -/

inductive BookField
  | title
  | publication_year
  | author_name
  | id
deriving DecidableEq, Repr

def bookFieldOfName (s : String) : Option BookField :=
  if s = "title" then some .title
  else if s = "publication_year" then some .publication_year
  else if s = "author__name" then some .author_name
  else if s = "id" then some .id
  else none

def bookOrderingFields : List String :=
  ["title", "publication_year", "author__name", "id"]

def bookDefaultOrdering : List (SortKey BookField) :=
  [⟨.title, false⟩]

/-- Per-field comparison for book sort keys: text fields compare
case-sensitively lexicographically, numeric fields by value. -/
def bookFieldCmp (authors : List Author) :
    BookField → Book → Book → Ordering
  | .title, a, b => strCmp a.title b.title
  | .publication_year, a, b => cmp a.publication_year b.publication_year
  | .author_name, a, b => strCmp (authorNameD authors a) (authorNameD authors b)
  | .id, a, b => cmp a.id b.id

/-- The composed book list query: resolve and validate the filter parameters
(failing with the full error set), apply the AND-combined predicates to the
snapshot, apply the search term, then sort by the ordering specification. -/
def bookListQuery (s : Store) (cy : Int) (params : List (String × String)) :
    Except (List String) (List Book) :=
  match validateBookParams s.authors params with
  | .error errs => .error errs
  | .ok f =>
    match orderingKeys bookFieldOfName bookOrderingFields bookDefaultOrdering
        (getParam params "ordering") with
    | none => .error ["ordering"]
    | some ks =>
      .ok (order_by (bookFieldCmp s.authors) ks
        (searchBooks s.authors (getParam params "search")
          (s.books.filter (bookMatches s.authors cy f))))

/-- The composed book list query as the code executes it on the default
database backend: identical to `bookListQuery` except that the search stage
carries the `FieldError` raised through the `@title` entry of
`search_fields`, so any request with a search term fails before ordering is
resolved. -/
def bookListQueryDefaultBackend (s : Store) (cy : Int)
    (params : List (String × String)) : Except (List String) (List Book) :=
  match validateBookParams s.authors params with
  | .error errs => .error errs
  | .ok f =>
    match searchBooksDefaultBackend (getParam params "search")
        (s.books.filter (bookMatches s.authors cy f)) with
    | .error e => .error e
    | .ok searched =>
      match orderingKeys bookFieldOfName bookOrderingFields
          bookDefaultOrdering (getParam params "ordering") with
      | none => .error ["ordering"]
      | some ks => .ok (order_by (bookFieldCmp s.authors) ks searched)

/-- Every parameter name the book list endpoint reads; any other key in the
request mapping is ignored. -/
def bookRecognizedParams : List String :=
  ["title", "author", "author_name", "publication_year", "year_from",
   "year_to", "recent_books", "title__icontains", "publication_year__gte",
   "publication_year__lte", "publication_year__gt", "publication_year__lt",
   "author__name", "author__name__icontains", "search", "ordering"]

/-! ### Author list view (`AuthorListView`, `AuthorFilter`)

Filters: `name` (icontains) and the `has_books` flag (`true` keeps authors
with at least one book, `false` keeps authors with none, anything else is no
constraint).  Search field: `name`.  Ordering fields: `name`, `id`; default
ordering `name` ascending. -/

structure ResolvedAuthorFilter where
  name : Option String
  has_books : Option Bool
deriving DecidableEq, Repr

def resolveAuthorParams (params : List (String × String)) :
    ResolvedAuthorFilter :=
  ⟨getParamNE params "name",
   (match getParamNE params "has_books" with
    | none => none
    | some v => parseNullBoolean v)⟩

def authorMatches (books : List Book) (f : ResolvedAuthorFilter)
    (a : Author) : Bool :=
  optCheck f.name (fun s => icontains a.name s) &&
  optCheck f.has_books (fun v =>
    if v then books.any (fun b => b.author == a.id)
    else books.all (fun b => b.author != a.id))

inductive AuthorField
  | name
  | id
deriving DecidableEq, Repr

def authorFieldOfName (s : String) : Option AuthorField :=
  if s = "name" then some .name
  else if s = "id" then some .id
  else none

def authorFieldCmp : AuthorField → Author → Author → Ordering
  | .name, a, b => strCmp a.name b.name
  | .id, a, b => cmp a.id b.id

def authorDefaultOrdering : List (SortKey AuthorField) :=
  [⟨.name, false⟩]

/-- The composed author list query (author filter resolution has no numeric
or choice field, so only a malformed ordering term can fail). -/
def authorListQuery (s : Store) (params : List (String × String)) :
    Except (List String) (List Author) :=
  match orderingKeys authorFieldOfName ["name", "id"] authorDefaultOrdering
      (getParam params "ordering") with
  | none => .error ["ordering"]
  | some ks =>
    .ok (order_by authorFieldCmp ks
      (searchAuthors (getParam params "search")
        (s.authors.filter (authorMatches s.books (resolveAuthorParams params)))))

/-! ### Pagination and read-only execution

Modelled from the spec: the pagination component (offset/limit bounds,
spec sections 4.2 and 6) is configured in the project settings module, which
is not among the sources; per the spec, pagination skips `offset` records of
the composed sequence and returns at most `limit`.  `runBookListQuery`
executes one read-only request against a store snapshot and hands the store
back unchanged (the list endpoints never write). -/

def paginate {α : Type} (offset limit : Nat) (l : List α) : List α :=
  (l.drop offset).take limit

def runBookListQuery (s : Store) (cy : Int) (params : List (String × String))
    (offset limit : Nat) : Except (List String) (List Book) × Store :=
  (match bookListQuery s cy params with
   | .error e => .error e
   | .ok l => .ok (paginate offset limit l), s)

/-! ### Write boundary (`api/serializers.py`, `BookSerializer`)

`validate_publication_year` rejects a year greater than the current calendar
year; the `ModelSerializer` additionally requires a non-blank title within
the model's `max_length=300` and an `author` primary key naming an existing
row.  Field errors are collected per field name; an invalid submission
leaves the store untouched. -/

structure BookInput where
  title : String
  publication_year : Int
  author : Nat
deriving DecidableEq, Repr

def validate_publication_year (cy : Int) (value : Int) : Except String Int :=
  if value > cy then .error "Publication year cannot be in the future."
  else .ok value

def bookSerializerErrors (authors : List Author) (cy : Int) (inp : BookInput) :
    List String :=
  (if inp.title = "" || inp.title.length > 300 then ["title"] else []) ++
  (match validate_publication_year cy inp.publication_year with
   | .ok _ => []
   | .error _ => ["publication_year"]) ++
  (match authorById authors inp.author with
   | some _ => []
   | none => ["author"])

/-- Fresh primary key for a created book row. -/
def nextBookId (s : Store) : Nat :=
  (s.books.map (fun b => b.id)).foldr Nat.max 0 + 1

/-- `BookCreateView`: validate, then either persist the new row or return
the error set with the store unchanged. -/
def bookCreate (s : Store) (cy : Int) (inp : BookInput) :
    Except (List String) Book × Store :=
  let errs := bookSerializerErrors s.authors cy inp
  if errs.isEmpty then
    let b : Book := ⟨nextBookId s, inp.title, inp.publication_year, inp.author⟩
    (.ok b, ⟨s.authors, s.books ++ [b]⟩)
  else (.error errs, s)

/-- `BookUpdateView`: look up the target row, validate, then either replace
the row's fields or return the error set with the store unchanged. -/
def bookUpdate (s : Store) (cy : Int) (bid : Nat) (inp : BookInput) :
    Except (List String) Book × Store :=
  match s.books.find? (fun b => b.id == bid) with
  | none => (.error ["not_found"], s)
  | some _ =>
    let errs := bookSerializerErrors s.authors cy inp
    if errs.isEmpty then
      let nb : Book := ⟨bid, inp.title, inp.publication_year, inp.author⟩
      (.ok nb, ⟨s.authors, s.books.map (fun b => if b.id == bid then nb else b)⟩)
    else (.error errs, s)

/-! ### Relationship query helpers (`relationship_app/query_samples.py`)

`get_books_by_author` computes `Book.objects.filter(author=author)` and the
related-manager lookup `author.books.all()` over the same foreign key, and
returns `books_via_filter or books_via_related`: a Python `or` whose left
operand is taken unless it is an empty queryset. -/

structure RelAuthor where
  id : Nat
  name : String
deriving DecidableEq, Repr

structure RelBook where
  id : Nat
  title : String
  author : Nat
deriving DecidableEq, Repr

structure RelStore where
  authors : List RelAuthor
  books : List RelBook
deriving DecidableEq, Repr

/-- `Book.objects.filter(author=author)`: the explicit foreign-key filter. -/
def rel_books_via_filter (s : RelStore) (a : RelAuthor) : List RelBook :=
  s.books.filter (fun b => b.author == a.id)

/-- `author.books.all()`: the reverse accessor of the same foreign key,
the books whose `author` column references this author row. -/
def rel_books_via_related (s : RelStore) (a : RelAuthor) : List RelBook :=
  s.books.filter (fun b => a.id == b.author)

/-- The helper's result expression `books_via_filter or books_via_related`:
Python takes the left queryset unless it is falsy (empty). -/
def get_books_by_author_value (s : RelStore) (a : RelAuthor) : List RelBook :=
  if (rel_books_via_filter s a).isEmpty then rel_books_via_related s a
  else rel_books_via_filter s a

/-! ### Sample data

The three-book store of the spec's scenario section: `Animal Farm` (1945)
and `1984` (1949) by George Orwell, a 1997 Harry Potter title by
J.K. Rowling. -/

def orwell : Author := ⟨1, "George Orwell"⟩

def rowling : Author := ⟨2, "J.K. Rowling"⟩

def animalFarm : Book := ⟨1, "Animal Farm", 1945, 1⟩

def nineteenEightyFour : Book := ⟨2, "1984", 1949, 1⟩

def harryPotter : Book := ⟨3, "Harry Potter", 1997, 2⟩

def sampleStore : Store :=
  ⟨[orwell, rowling], [animalFarm, nineteenEightyFour, harryPotter]⟩

/-- A 2020 book, for exercising the `recent_books` flag and the write
boundary on a store that has a recent record. -/
def recentBook : Book := ⟨4, "Recent Times", 2020, 2⟩

def recentStore : Store :=
  ⟨[orwell, rowling], [animalFarm, nineteenEightyFour, harryPotter, recentBook]⟩

/-! ### Statement vocabulary

`BookPredHolds` spells out, as propositions, the conjunction of every
resolved predicate of a `ResolvedBookFilter`; `bookKeyLe`/`bookKeyEq` give
the value-level order and equality of each sort key (string keys compare
case-sensitively lexicographically via the linear order on `String`, numeric
keys by value).  `CmpLaws` packages the comparator facts the ordering proofs
need. -/

def BookPredHolds (A : List Author) (cy : Int) (f : ResolvedBookFilter)
    (b : Book) : Prop :=
  (∀ t, f.title = some t → icontains b.title t = true) ∧
  (∀ n, f.author = some n → b.author = n) ∧
  (∀ q, f.author_name = some q → icontains (authorNameD A b) q = true) ∧
  (∀ y, f.publication_year = some y → b.publication_year = y) ∧
  (∀ y, f.year_from = some y → y ≤ b.publication_year) ∧
  (∀ y, f.year_to = some y → b.publication_year ≤ y) ∧
  (f.recent_books = some true → cy - 10 ≤ b.publication_year) ∧
  (∀ t, f.title__icontains = some t → icontains b.title t = true) ∧
  (∀ y, f.publication_year__gte = some y → y ≤ b.publication_year) ∧
  (∀ y, f.publication_year__lte = some y → b.publication_year ≤ y) ∧
  (∀ y, f.publication_year__gt = some y → y < b.publication_year) ∧
  (∀ y, f.publication_year__lt = some y → b.publication_year < y) ∧
  (∀ q, f.author__name = some q → authorNameD A b = q) ∧
  (∀ q, f.author__name__icontains = some q → icontains (authorNameD A b) q = true)

def bookKeyLe (A : List Author) : BookField → Book → Book → Prop
  | .title, a, b => a.title ≤ b.title
  | .publication_year, a, b => a.publication_year ≤ b.publication_year
  | .author_name, a, b => authorNameD A a ≤ authorNameD A b
  | .id, a, b => a.id ≤ b.id

def bookKeyEq (A : List Author) : BookField → Book → Book → Prop
  | .title, a, b => a.title = b.title
  | .publication_year, a, b => a.publication_year = b.publication_year
  | .author_name, a, b => authorNameD A a = authorNameD A b
  | .id, a, b => a.id = b.id

structure CmpLaws {α : Type} (c : α → α → Ordering) : Prop where
  refl : ∀ a, c a a = Ordering.eq
  gt_iff : ∀ a b, c a b = Ordering.gt ↔ c b a = Ordering.lt
  eq_symm : ∀ a b, c a b = Ordering.eq → c b a = Ordering.eq
  subst_left : ∀ a b x, c a b = Ordering.eq → c a x = c b x
  subst_right : ∀ a b x, c a b = Ordering.eq → c x a = c x b
  lt_trans : ∀ a b x, c a b = Ordering.lt → c b x = Ordering.lt →
    c a x = Ordering.lt

/-! ## Theorems -/

theorem charsCmp_lt_iff : ∀ l m : List Char,
    charsCmp l m = Ordering.lt ↔ List.Lex (· < ·) l m
  | [], [] =>
    iff_of_false (by simp [charsCmp]) (List.Lex.not_nil_right _ _)
  | [], _ :: _ => iff_of_true rfl List.Lex.nil
  | _ :: _, [] =>
    iff_of_false (by simp [charsCmp]) (List.Lex.not_nil_right _ _)
  | a :: as, b :: bs => by
    simp only [charsCmp]
    by_cases hab : a < b
    · rw [if_pos hab]
      exact iff_of_true rfl (List.Lex.rel hab)
    · by_cases hba : b < a
      · rw [if_neg hab, if_pos hba]
        constructor
        · intro h; exact absurd h (by simp)
        · intro h
          cases h with
          | cons h => exact absurd hba (lt_irrefl _)
          | rel h => exact absurd h hab
      · have heq : a = b := le_antisymm (le_of_not_lt hba) (le_of_not_lt hab)
        subst heq
        rw [if_neg hab, if_neg hba, charsCmp_lt_iff as bs]
        constructor
        · intro h; exact List.Lex.cons h
        · intro h
          cases h with
          | cons h => exact h
          | rel h => exact absurd h (lt_irrefl _)

theorem charsCmp_eq_iff : ∀ l m : List Char, charsCmp l m = Ordering.eq ↔ l = m
  | [], [] => by simp [charsCmp]
  | [], b :: bs => by simp [charsCmp]
  | a :: as, [] => by simp [charsCmp]
  | a :: as, b :: bs => by
    simp only [charsCmp]
    by_cases hab : a < b
    · rw [if_pos hab]
      exact iff_of_false (by simp)
        (fun h => absurd (List.cons.inj h).1 (ne_of_lt hab))
    · by_cases hba : b < a
      · rw [if_neg hab, if_pos hba]
        exact iff_of_false (by simp)
          (fun h => absurd (List.cons.inj h).1 (ne_of_gt hba))
      · have heq : a = b := le_antisymm (le_of_not_lt hba) (le_of_not_lt hab)
        subst heq
        rw [if_neg hab, if_neg hba, charsCmp_eq_iff as bs]
        simp

theorem strCmp_lt_iff (s t : String) : strCmp s t = Ordering.lt ↔ s < t := by
  rw [String.lt_iff_toList_lt]
  exact charsCmp_lt_iff s.toList t.toList

theorem strCmp_eq_iff (s t : String) : strCmp s t = Ordering.eq ↔ s = t := by
  rw [← String.toList_inj]
  exact charsCmp_eq_iff s.toList t.toList

theorem strCmp_gt_iff (s t : String) : strCmp s t = Ordering.gt ↔ t < s := by
  constructor
  · intro h
    rcases lt_trichotomy s t with hlt | heq | hgt
    · rw [(strCmp_lt_iff s t).mpr hlt] at h; exact absurd h (by simp)
    · rw [(strCmp_eq_iff s t).mpr heq] at h; exact absurd h (by simp)
    · exact hgt
  · intro h
    cases ho : strCmp s t with
    | lt => exact absurd ((strCmp_lt_iff s t).mp ho) (asymm h)
    | eq => exact absurd ((strCmp_eq_iff s t).mp ho) (ne_of_gt h)
    | gt => rfl

theorem cmpLaws_strCmp : CmpLaws strCmp where
  refl a := (strCmp_eq_iff a a).mpr rfl
  gt_iff a b := (strCmp_gt_iff a b).trans (strCmp_lt_iff b a).symm
  eq_symm a b h := (strCmp_eq_iff b a).mpr ((strCmp_eq_iff a b).mp h).symm
  subst_left a b x h := by rw [(strCmp_eq_iff a b).mp h]
  subst_right a b x h := by rw [(strCmp_eq_iff a b).mp h]
  lt_trans a b x h1 h2 := (strCmp_lt_iff a x).mpr
    (lt_trans ((strCmp_lt_iff a b).mp h1) ((strCmp_lt_iff b x).mp h2))

theorem cmpLaws_cmp {β : Type} [LinearOrder β] : CmpLaws (fun a b : β => cmp a b) where
  refl a := cmp_self_eq_eq a
  gt_iff a b := (cmp_eq_gt_iff a b).trans (cmp_eq_lt_iff b a).symm
  eq_symm a b h := (cmp_eq_eq_iff b a).mpr ((cmp_eq_eq_iff a b).mp h).symm
  subst_left a b x h := by rw [(cmp_eq_eq_iff a b).mp h]
  subst_right a b x h := by rw [(cmp_eq_eq_iff a b).mp h]
  lt_trans a b x h1 h2 := (cmp_eq_lt_iff a x).mpr
    (lt_trans ((cmp_eq_lt_iff a b).mp h1) ((cmp_eq_lt_iff b x).mp h2))

theorem CmpLaws.comap {α β : Type} {c : β → β → Ordering} (h : CmpLaws c)
    (key : α → β) : CmpLaws (fun a b => c (key a) (key b)) where
  refl a := h.refl (key a)
  gt_iff a b := h.gt_iff (key a) (key b)
  eq_symm a b hab := h.eq_symm (key a) (key b) hab
  subst_left a b x hab := h.subst_left (key a) (key b) (key x) hab
  subst_right a b x hab := h.subst_right (key a) (key b) (key x) hab
  lt_trans a b x h1 h2 := h.lt_trans (key a) (key b) (key x) h1 h2

theorem bookFieldCmp_laws (A : List Author) (f : BookField) :
    CmpLaws (bookFieldCmp A f) := by
  cases f with
  | title => exact cmpLaws_strCmp.comap Book.title
  | publication_year => exact cmpLaws_cmp.comap Book.publication_year
  | author_name => exact cmpLaws_strCmp.comap (authorNameD A)
  | id => exact cmpLaws_cmp.comap Book.id

theorem authorFieldCmp_laws (f : AuthorField) : CmpLaws (authorFieldCmp f) := by
  cases f with
  | name => exact cmpLaws_strCmp.comap Author.name
  | id => exact cmpLaws_cmp.comap Author.id

theorem dirCmp_gt_iff {φ α : Type} {fcmp : φ → α → α → Ordering}
    (laws : ∀ f, CmpLaws (fcmp f)) (k : SortKey φ) (a b : α) :
    dirCmp fcmp k a b = Ordering.gt ↔ dirCmp fcmp k b a = Ordering.lt := by
  unfold dirCmp
  by_cases hk : k.desc = true
  · rw [if_pos hk, if_pos hk]
    exact (laws k.field).gt_iff b a
  · rw [if_neg hk, if_neg hk]
    exact (laws k.field).gt_iff a b

theorem dirCmp_eq_symm {φ α : Type} {fcmp : φ → α → α → Ordering}
    (laws : ∀ f, CmpLaws (fcmp f)) (k : SortKey φ) (a b : α)
    (h : dirCmp fcmp k a b = Ordering.eq) :
    dirCmp fcmp k b a = Ordering.eq := by
  unfold dirCmp at h ⊢
  by_cases hk : k.desc = true
  · rw [if_pos hk] at h ⊢
    exact (laws k.field).eq_symm b a h
  · rw [if_neg hk] at h ⊢
    exact (laws k.field).eq_symm a b h

theorem dirCmp_subst_left {φ α : Type} {fcmp : φ → α → α → Ordering}
    (laws : ∀ f, CmpLaws (fcmp f)) (k : SortKey φ) (a b x : α)
    (h : dirCmp fcmp k a b = Ordering.eq) :
    dirCmp fcmp k a x = dirCmp fcmp k b x := by
  unfold dirCmp at h ⊢
  cases hd : k.desc with
  | true =>
    simp only [hd, if_true] at h ⊢
    exact (laws k.field).subst_right a b x ((laws k.field).eq_symm b a h)
  | false =>
    simp [hd] at h ⊢
    exact (laws k.field).subst_left a b x h

theorem dirCmp_subst_right {φ α : Type} {fcmp : φ → α → α → Ordering}
    (laws : ∀ f, CmpLaws (fcmp f)) (k : SortKey φ) (a b x : α)
    (h : dirCmp fcmp k a b = Ordering.eq) :
    dirCmp fcmp k x a = dirCmp fcmp k x b := by
  unfold dirCmp at h ⊢
  cases hd : k.desc with
  | true =>
    simp only [hd, if_true] at h ⊢
    exact (laws k.field).subst_left a b x ((laws k.field).eq_symm b a h)
  | false =>
    simp [hd] at h ⊢
    exact (laws k.field).subst_right a b x h

theorem dirCmp_lt_trans {φ α : Type} {fcmp : φ → α → α → Ordering}
    (laws : ∀ f, CmpLaws (fcmp f)) (k : SortKey φ) (a b c : α)
    (h1 : dirCmp fcmp k a b = Ordering.lt)
    (h2 : dirCmp fcmp k b c = Ordering.lt) :
    dirCmp fcmp k a c = Ordering.lt := by
  unfold dirCmp at h1 h2 ⊢
  by_cases hk : k.desc = true
  · rw [if_pos hk] at h1 h2 ⊢
    exact (laws k.field).lt_trans c b a h2 h1
  · rw [if_neg hk] at h1 h2 ⊢
    exact (laws k.field).lt_trans a b c h1 h2

theorem keysCmp_gt_iff {φ α : Type} {fcmp : φ → α → α → Ordering}
    (laws : ∀ f, CmpLaws (fcmp f)) :
    ∀ (ks : List (SortKey φ)) (a b : α),
      keysCmp fcmp ks a b = Ordering.gt ↔ keysCmp fcmp ks b a = Ordering.lt
  | [], a, b => by simp [keysCmp]
  | k :: ks, a, b => by
    simp only [keysCmp]
    cases hu : dirCmp fcmp k a b with
    | lt =>
      have hv : dirCmp fcmp k b a = Ordering.gt :=
        (dirCmp_gt_iff laws k b a).mpr hu
      rw [hv]
      exact iff_of_false (by simp) (by simp)
    | eq =>
      have hv : dirCmp fcmp k b a = Ordering.eq := dirCmp_eq_symm laws k a b hu
      rw [hv]
      exact keysCmp_gt_iff laws ks a b
    | gt =>
      have hv : dirCmp fcmp k b a = Ordering.lt :=
        (dirCmp_gt_iff laws k a b).mp hu
      rw [hv]
      exact iff_of_true rfl rfl

theorem keysLe_total {φ α : Type} {fcmp : φ → α → α → Ordering}
    (laws : ∀ f, CmpLaws (fcmp f)) (ks : List (SortKey φ)) (a b : α) :
    keysLe fcmp ks a b ∨ keysLe fcmp ks b a := by
  by_cases h : keysCmp fcmp ks a b = Ordering.gt
  · right
    intro hc
    rw [(keysCmp_gt_iff laws ks a b).mp h] at hc
    exact absurd hc (by simp)
  · exact Or.inl h

theorem keysLe_trans {φ α : Type} {fcmp : φ → α → α → Ordering}
    (laws : ∀ f, CmpLaws (fcmp f)) :
    ∀ (ks : List (SortKey φ)) (a b c : α),
      keysLe fcmp ks a b → keysLe fcmp ks b c → keysLe fcmp ks a c
  | [], a, b, c, _, _ => by simp [keysLe, keysCmp]
  | k :: ks, a, b, c, hab, hbc => by
    unfold keysLe at hab hbc ⊢
    simp only [keysCmp] at hab hbc ⊢
    cases hu : dirCmp fcmp k a b with
    | gt => rw [hu] at hab; exact absurd rfl hab
    | lt =>
      cases hv : dirCmp fcmp k b c with
      | gt => rw [hv] at hbc; exact absurd rfl hbc
      | lt =>
        rw [dirCmp_lt_trans laws k a b c hu hv]
        simp
      | eq =>
        rw [(dirCmp_subst_right laws k b c a hv).symm, hu]
        simp
    | eq =>
      rw [hu] at hab
      cases hv : dirCmp fcmp k b c with
      | gt => rw [hv] at hbc; exact absurd rfl hbc
      | lt =>
        rw [dirCmp_subst_left laws k a b c hu, hv]
        simp
      | eq =>
        rw [hv] at hbc
        rw [dirCmp_subst_left laws k a b c hu, hv]
        exact keysLe_trans laws ks a b c hab hbc

/-- The composed ORDER BY outputs a sequence sorted under the multi-key
order. -/
theorem order_by_sorted {φ α : Type} {fcmp : φ → α → α → Ordering}
    (laws : ∀ f, CmpLaws (fcmp f)) (ks : List (SortKey φ)) (l : List α) :
    (order_by fcmp ks l).Sorted (keysLe fcmp ks) := by
  haveI : IsTotal α (keysLe fcmp ks) := ⟨keysLe_total laws ks⟩
  haveI : IsTrans α (keysLe fcmp ks) := ⟨keysLe_trans laws ks⟩
  exact List.sorted_insertionSort (keysLe fcmp ks) l

theorem mem_order_by {φ α : Type} (fcmp : φ → α → α → Ordering)
    (ks : List (SortKey φ)) (l : List α) (x : α) :
    x ∈ order_by fcmp ks l ↔ x ∈ l :=
  (List.perm_insertionSort (keysLe fcmp ks) l).mem_iff

/-- Stability of the composed ORDER BY: a pair of records tied on every sort
key keeps its input order. -/
theorem order_by_stable {φ α : Type} {fcmp : φ → α → α → Ordering}
    (ks : List (SortKey φ)) (l : List α) (a b : α)
    (hab : keysCmp fcmp ks a b = Ordering.eq)
    (h : List.Sublist [a, b] l) :
    List.Sublist [a, b] (order_by fcmp ks l) :=
  List.pair_sublist_insertionSort (by intro hc; rw [hab] at hc; exact absurd hc (by simp)) h

theorem optCheck_eq_true {α : Type} (o : Option α) (p : α → Bool) :
    optCheck o p = true ↔ ∀ x, o = some x → p x = true := by
  cases o <;> simp [optCheck]

theorem flag_forall_iff (o : Option Bool) (d : Bool) :
    (∀ x, o = some x → (!x || d) = true) ↔ (o = some true → d = true) := by
  constructor
  · intro h ht
    simpa using h true ht
  · intro h x hx
    cases x
    · simp
    · simp [h hx]

/-- The boolean predicate conjunction of `BookFilter` agrees with its
propositional reading. -/
theorem bookMatches_iff (A : List Author) (cy : Int) (f : ResolvedBookFilter)
    (b : Book) : bookMatches A cy f b = true ↔ BookPredHolds A cy f b := by
  simp only [bookMatches, BookPredHolds, Bool.and_eq_true, and_assoc,
    optCheck_eq_true, beq_iff_eq, decide_eq_true_eq]
  rw [flag_forall_iff]
  simp only [decide_eq_true_eq]

theorem mem_searchBooks (A : List Author) (q : Option String) (l : List Book)
    (b : Book) :
    b ∈ searchBooks A q l ↔
      b ∈ l ∧ ∀ t, q = some t → (searchTerms t).all (bookTermMatch A b) = true := by
  cases q <;> simp [searchBooks, List.mem_filter]

/-- Inversion of a successful book list query: validation resolved a filter,
the ordering specification parsed, and the result is the sorted, searched,
filtered snapshot. -/
theorem bookListQuery_ok_elim (s : Store) (cy : Int)
    (params : List (String × String)) (r : List Book)
    (h : bookListQuery s cy params = .ok r) :
    ∃ f ks, validateBookParams s.authors params = .ok f ∧
      orderingKeys bookFieldOfName bookOrderingFields bookDefaultOrdering
        (getParam params "ordering") = some ks ∧
      r = order_by (bookFieldCmp s.authors) ks
        (searchBooks s.authors (getParam params "search")
          (s.books.filter (bookMatches s.authors cy f))) := by
  unfold bookListQuery at h
  cases hv : validateBookParams s.authors params with
  | error e => rw [hv] at h; exact absurd h (by simp)
  | ok f =>
    rw [hv] at h
    cases hk : orderingKeys bookFieldOfName bookOrderingFields
        bookDefaultOrdering (getParam params "ordering") with
    | none => rw [hk] at h; exact absurd h (by simp)
    | some ks =>
      rw [hk] at h
      simp only [Except.ok.injEq] at h
      exact ⟨f, ks, rfl, rfl, h.symm⟩

theorem authorListQuery_ok_elim (s : Store) (params : List (String × String))
    (r : List Author) (h : authorListQuery s params = .ok r) :
    ∃ ks, orderingKeys authorFieldOfName ["name", "id"] authorDefaultOrdering
        (getParam params "ordering") = some ks ∧
      r = order_by authorFieldCmp ks
        (searchAuthors (getParam params "search")
          (s.authors.filter (authorMatches s.books (resolveAuthorParams params)))) := by
  unfold authorListQuery at h
  cases hk : orderingKeys authorFieldOfName ["name", "id"]
      authorDefaultOrdering (getParam params "ordering") with
  | none => rw [hk] at h; exact absurd h (by simp)
  | some ks =>
    rw [hk] at h
    simp only [Except.ok.injEq] at h
    exact ⟨ks, rfl, h.symm⟩

theorem getParam_append_ne (params : List (String × String)) (k v key : String)
    (h : key ≠ k) : getParam (params ++ [(k, v)]) key = getParam params key := by
  unfold getParam
  rw [List.filter_append]
  have hf : List.filter (fun p => p.1 == key) [(k, v)] = [] := by
    simp only [List.filter_cons, List.filter_nil]
    rw [if_neg]
    intro hc
    exact h (beq_iff_eq.mp hc).symm
  rw [hf, List.append_nil]

theorem getParamNE_congr {p1 p2 : List (String × String)} (key : String)
    (h : getParam p1 key = getParam p2 key) :
    getParamNE p1 key = getParamNE p2 key := by
  unfold getParamNE
  rw [h]

theorem numErr_congr {p1 p2 : List (String × String)} (key : String)
    (h : getParam p1 key = getParam p2 key) :
    numErr p1 key = numErr p2 key := by
  unfold numErr
  rw [getParamNE_congr key h]

theorem numVal_congr {p1 p2 : List (String × String)} (key : String)
    (h : getParam p1 key = getParam p2 key) :
    numVal p1 key = numVal p2 key := by
  unfold numVal
  rw [getParamNE_congr key h]

theorem validateBookParams_congr (A : List Author)
    {p1 p2 : List (String × String)}
    (h : ∀ key, key ∈ bookRecognizedParams → getParam p1 key = getParam p2 key) :
    validateBookParams A p1 = validateBookParams A p2 := by
  have hmem : ∀ key, key ∈ bookRecognizedParams →
      getParamNE p1 key = getParamNE p2 key :=
    fun key hk => getParamNE_congr key (h key hk)
  have hac : authorChoice A p1 = authorChoice A p2 := by
    unfold authorChoice
    rw [hmem "author" (by simp [bookRecognizedParams])]
  have herr : bookParamErrors A p1 = bookParamErrors A p2 := by
    unfold bookParamErrors
    rw [hac]
    simp only [numericBookParams, List.map_cons, List.map_nil]
    rw [numErr_congr "publication_year" (h _ (by simp [bookRecognizedParams])),
      numErr_congr "year_from" (h _ (by simp [bookRecognizedParams])),
      numErr_congr "year_to" (h _ (by simp [bookRecognizedParams])),
      numErr_congr "publication_year__gte" (h _ (by simp [bookRecognizedParams])),
      numErr_congr "publication_year__lte" (h _ (by simp [bookRecognizedParams])),
      numErr_congr "publication_year__gt" (h _ (by simp [bookRecognizedParams])),
      numErr_congr "publication_year__lt" (h _ (by simp [bookRecognizedParams]))]
  unfold validateBookParams
  rw [herr, hac,
    hmem "title" (by simp [bookRecognizedParams]),
    hmem "author_name" (by simp [bookRecognizedParams]),
    hmem "recent_books" (by simp [bookRecognizedParams]),
    hmem "title__icontains" (by simp [bookRecognizedParams]),
    hmem "author__name" (by simp [bookRecognizedParams]),
    hmem "author__name__icontains" (by simp [bookRecognizedParams]),
    numVal_congr "publication_year" (h _ (by simp [bookRecognizedParams])),
    numVal_congr "year_from" (h _ (by simp [bookRecognizedParams])),
    numVal_congr "year_to" (h _ (by simp [bookRecognizedParams])),
    numVal_congr "publication_year__gte" (h _ (by simp [bookRecognizedParams])),
    numVal_congr "publication_year__lte" (h _ (by simp [bookRecognizedParams])),
    numVal_congr "publication_year__gt" (h _ (by simp [bookRecognizedParams])),
    numVal_congr "publication_year__lt" (h _ (by simp [bookRecognizedParams]))]

theorem bookListQuery_congr (s : Store) (cy : Int)
    {p1 p2 : List (String × String)}
    (h : ∀ key, key ∈ bookRecognizedParams → getParam p1 key = getParam p2 key) :
    bookListQuery s cy p1 = bookListQuery s cy p2 := by
  unfold bookListQuery
  rw [validateBookParams_congr s.authors h,
    h "search" (by simp [bookRecognizedParams]),
    h "ordering" (by simp [bookRecognizedParams])]

/-- Membership in a successful book query without a search term: exactly
the snapshot records satisfying every resolved predicate. -/
theorem bookListQuery_mem_no_search (s : Store) (cy : Int)
    (params : List (String × String)) (f : ResolvedBookFilter) (r : List Book)
    (hv : validateBookParams s.authors params = .ok f)
    (hs : getParam params "search" = none)
    (hq : bookListQuery s cy params = .ok r) (b : Book) :
    b ∈ r ↔ b ∈ s.books ∧ BookPredHolds s.authors cy f b := by
  obtain ⟨f2, ks, hv2, hk, hr⟩ := bookListQuery_ok_elim s cy params r hq
  rw [hv] at hv2
  have hf : f = f2 := by
    simpa using hv2
  subst hf
  rw [hs] at hr
  rw [hr, mem_order_by]
  have hsearch : searchBooks s.authors none
      (s.books.filter (bookMatches s.authors cy f)) =
      s.books.filter (bookMatches s.authors cy f) := rfl
  rw [hsearch, List.mem_filter, bookMatches_iff]

/-- Soundness alone, for any successful book query (search term or not):
every returned record is a snapshot record satisfying every resolved
predicate. -/
theorem bookListQuery_mem_sound (s : Store) (cy : Int)
    (params : List (String × String)) (f : ResolvedBookFilter) (r : List Book)
    (hv : validateBookParams s.authors params = .ok f)
    (hq : bookListQuery s cy params = .ok r) (b : Book) (hb : b ∈ r) :
    b ∈ s.books ∧ BookPredHolds s.authors cy f b := by
  obtain ⟨f2, ks, hv2, hk, hr⟩ := bookListQuery_ok_elim s cy params r hq
  rw [hv] at hv2
  have hf : f = f2 := by
    simpa using hv2
  subst hf
  rw [hr, mem_order_by, mem_searchBooks, List.mem_filter] at hb
  exact ⟨hb.1.1, (bookMatches_iff s.authors cy f b).mp hb.1.2⟩

/-- C1: for every request whose recognized filter parameters all validate,
every record of the returned sequence satisfies every resolved predicate
(title icontains, author exact id, author_name icontains, publication_year
exact, year_from ≥, year_to ≤, together with the `Meta.fields`-generated
lookup variants), and every snapshot record satisfying all resolved
predicates appears in the result (stated for requests without a free-text
`search` term, which is a separate composer stage); a parameter the endpoint
does not recognize imposes no constraint, and an absent parameter resolves
to `none`, which constrains nothing. -/
theorem C1_filter_soundness_completeness :
    (∀ (s : Store) (cy : Int) (params : List (String × String))
        (f : ResolvedBookFilter) (r : List Book),
        validateBookParams s.authors params = .ok f →
        getParam params "search" = none →
        bookListQuery s cy params = .ok r →
        ∀ b : Book, b ∈ r ↔ b ∈ s.books ∧ BookPredHolds s.authors cy f b) ∧
    (∀ (s : Store) (cy : Int) (params : List (String × String)) (k v : String),
        k ∉ bookRecognizedParams →
        bookListQuery s cy (params ++ [(k, v)]) = bookListQuery s cy params) := by
  constructor
  · exact bookListQuery_mem_no_search
  · intro s cy params k v hk
    apply bookListQuery_congr
    intro key hkey
    apply getParam_append_ne
    intro hc
    exact hk (hc ▸ hkey)

/-- C1 witness: on the sample store, the request
`title=a&year_from=1940` resolves, returns exactly the snapshot books
matching both predicates, and appending the unrecognized parameter
`zzz=1` changes nothing. -/
theorem C1_witness :
    (animalFarm ∈ ([animalFarm, harryPotter] : List Book) ↔
      animalFarm ∈ sampleStore.books ∧
        BookPredHolds sampleStore.authors 2026
          ⟨some "a", none, none, none, some 1940, none, none, none, none,
            none, none, none, none, none⟩ animalFarm) ∧
    bookListQuery sampleStore 2026
        ([("title", "a"), ("year_from", "1940")] ++ [("zzz", "1")]) =
      bookListQuery sampleStore 2026 [("title", "a"), ("year_from", "1940")] :=
  ⟨C1_filter_soundness_completeness.1 sampleStore 2026
      [("title", "a"), ("year_from", "1940")]
      ⟨some "a", none, none, none, some 1940, none, none, none, none,
        none, none, none, none, none⟩
      [animalFarm, harryPotter] rfl rfl rfl animalFarm,
   C1_filter_soundness_completeness.2 sampleStore 2026
      [("title", "a"), ("year_from", "1940")] "zzz" "1" (by decide)⟩

/-- C2 counterexample: filtering by the id of a non-existent author (the
sample store has authors 1 and 2 only) does not succeed with an empty
sequence: the `ModelChoiceFilter` form field reports an invalid choice for
`author` and the request fails validation. -/
theorem C2_counterexample :
    bookListQuery sampleStore 2026 [("author", "5")] =
      Except.error ["author"] ∧
    ¬ bookListQuery sampleStore 2026 [("author", "5")] =
        Except.ok ([] : List Book) :=
  ⟨rfl, fun h => Except.noConfusion h⟩

/-- C2 (amended): for every request whose author parameter names a
non-existent author id, validation fails and the endpoint returns the error
set naming `author` — it does not succeed with an empty sequence. -/
theorem C2_unknown_author_rejected (s : Store) (cy : Int)
    (params : List (String × String)) (v : String) (n : Nat)
    (hv : getParamNE params "author" = some v)
    (hn : parseNat v = some n)
    (hmiss : authorById s.authors n = none) :
    ∃ errs, bookListQuery s cy params = .error errs ∧ "author" ∈ errs := by
  have hac : authorChoice s.authors params = (["author"], none) := by
    simp only [authorChoice, hv, hn, hmiss]
  have herr : bookParamErrors s.authors params =
      "author" :: (numericBookParams.map (fun k => numErr params k)).flatten := by
    unfold bookParamErrors
    rw [hac]
    rfl
  refine ⟨bookParamErrors s.authors params, ?_, ?_⟩
  · simp only [bookListQuery, validateBookParams]
    rw [herr]
    simp only [List.isEmpty_cons]
    rfl
  · rw [herr]
    exact List.mem_cons_self _ _

/-- C2 witness: the amended statement at the concrete request `author=5`
against the sample store. -/
theorem C2_witness :
    ∃ errs, bookListQuery sampleStore 2026 [("author", "5")] = .error errs ∧
      "author" ∈ errs :=
  C2_unknown_author_rejected sampleStore 2026 [("author", "5")] "5" 5 rfl rfl rfl

/-- C3: a request with at least one malformed numeric parameter fails with
the full error set: the resolver reports, in one pass, the name of every
numeric parameter whose value fails integer coercion, and no records are
returned. -/
theorem C3_invalid_numeric_reported_together (s : Store) (cy : Int)
    (params : List (String × String)) (k0 v0 : String)
    (hk0 : k0 ∈ numericBookParams)
    (hv0 : getParamNE params k0 = some v0)
    (hbad : parseInt v0 = none) :
    ∃ errs, bookListQuery s cy params = .error errs ∧ k0 ∈ errs ∧
      ∀ k, k ∈ numericBookParams →
        (∃ v, getParamNE params k = some v ∧ parseInt v = none) → k ∈ errs := by
  have hmemflat : ∀ k, k ∈ numericBookParams →
      (∃ v, getParamNE params k = some v ∧ parseInt v = none) →
      k ∈ bookParamErrors s.authors params := by
    intro k hk hex
    obtain ⟨v, hv, hb⟩ := hex
    unfold bookParamErrors
    apply List.mem_append_right
    rw [List.mem_flatten]
    refine ⟨numErr params k, List.mem_map_of_mem _ hk, ?_⟩
    simp [numErr, hv, hb]
  have hk0mem : k0 ∈ bookParamErrors s.authors params :=
    hmemflat k0 hk0 ⟨v0, hv0, hbad⟩
  have hne : (bookParamErrors s.authors params).isEmpty = false := by
    cases hE : bookParamErrors s.authors params with
    | nil => rw [hE] at hk0mem; cases hk0mem
    | cons a l => rfl
  refine ⟨bookParamErrors s.authors params, ?_, hk0mem, hmemflat⟩
  simp only [bookListQuery, validateBookParams, hne, Bool.false_eq_true,
    if_false]

/-- C3 witness: `publication_year=abc&year_from=xyz` fails with both names
reported together. -/
theorem C3_witness :
    ∃ errs, bookListQuery sampleStore 2026
        [("publication_year", "abc"), ("year_from", "xyz")] = .error errs ∧
      "publication_year" ∈ errs ∧
      ∀ k, k ∈ numericBookParams →
        (∃ v, getParamNE [("publication_year", "abc"), ("year_from", "xyz")] k
            = some v ∧ parseInt v = none) → k ∈ errs :=
  C3_invalid_numeric_reported_together sampleStore 2026
    [("publication_year", "abc"), ("year_from", "xyz")]
    "publication_year" "abc" (by simp [numericBookParams]) rfl rfl

theorem isPrefixOf_self {α : Type} [BEq α] [LawfulBEq α] (l : List α) :
    l.isPrefixOf l = true := by
  induction l with
  | nil => rfl
  | cons a as ih => simp [List.isPrefixOf, ih]

theorem occursIn_self (l : List Char) : occursIn l l = true := by
  cases l with
  | nil => rfl
  | cons c rest => simp [occursIn, isPrefixOf_self]

/-- The per-term search disjunction for books reduces to the two substring
fields: the `=title` iexact clause is subsumed by the `title` icontains
clause. -/
theorem bookTermMatch_iff (A : List Author) (b : Book) (t : String) :
    bookTermMatch A b t = true ↔
      (icontains b.title t = true ∨
        icontains (authorNameD A b) t = true) := by
  unfold bookTermMatch
  simp only [Bool.or_eq_true]
  constructor
  · intro h
    rcases h with (h | h) | h
    · exact Or.inl h
    · exact Or.inr h
    · left
      have heq : lowerChars b.title = lowerChars t := by
        simpa [iexactMatch] using h
      unfold icontains
      rw [heq]
      exact occursIn_self _
  · intro h
    rcases h with h | h
    · exact Or.inl (Or.inl h)
    · exact Or.inl (Or.inr h)

/-- The search behaviour the endpoint's own tests and the spec assert — the
code with the PostgreSQL-only `@title` slip removed: with a single-term
search, the result keeps exactly the predicate-passing records in which the
term occurs case-insensitively in the title or the author's name;
`orwell` matches `George Orwell`, and `farm` on the three-book sample store
yields exactly `Animal Farm`. -/
theorem search_substring_intended_semantics :
    (∀ (s : Store) (cy : Int) (params : List (String × String)) (q : String)
        (f : ResolvedBookFilter) (r : List Book),
        getParam params "search" = some q →
        searchTerms q = [q] →
        validateBookParams s.authors params = .ok f →
        bookListQuery s cy params = .ok r →
        ∀ b : Book, b ∈ r ↔
          (b ∈ s.books ∧ BookPredHolds s.authors cy f b) ∧
          (icontains b.title q = true ∨
            icontains (authorNameD s.authors b) q = true)) ∧
    icontains "George Orwell" "orwell" = true ∧
    bookListQuery sampleStore 2026 [("search", "farm")] = .ok [animalFarm] := by
  refine ⟨?_, rfl, rfl⟩
  intro s cy params q f r hs hterm hv hq b
  obtain ⟨f2, ks, hv2, hk, hr⟩ := bookListQuery_ok_elim s cy params r hq
  rw [hv] at hv2
  have hf : f = f2 := by
    simpa using hv2
  subst hf
  rw [hr, mem_order_by, mem_searchBooks, List.mem_filter]
  constructor
  · intro h
    refine ⟨⟨h.1.1, (bookMatches_iff s.authors cy f b).mp h.1.2⟩, ?_⟩
    have hb := h.2 q hs
    rw [hterm] at hb
    simp only [List.all_cons, List.all_nil, Bool.and_true] at hb
    exact (bookTermMatch_iff s.authors b q).mp hb
  · intro h
    refine ⟨⟨h.1.1, (bookMatches_iff s.authors cy f b).mpr h.1.2⟩, ?_⟩
    intro t ht
    rw [hs] at ht
    have hqt : q = t := by
      simpa using ht
    subst hqt
    rw [hterm]
    simp only [List.all_cons, List.all_nil, Bool.and_true]
    exact (bookTermMatch_iff s.authors b q).mpr h.2

/-- C4: the claimed search behaviour (case-insensitive substring of title OR
author name, and `search=farm` returning exactly `Animal Farm`) is what the
endpoint's own tests and the spec assert, but the code deviates: the
`@title` entry of `search_fields` is the ORM `__search` lookup, unsupported
on the default database backend, so the very requests the tests expect to
succeed fail with `FieldError` instead — `search=farm` and `search=orwell`
error while the same query without a search term still returns the
title-ordered snapshot.  The intended semantics, the code minus that slip,
is verified in `search_substring_intended_semantics`. -/
theorem C4_search_fielderror_default_backend :
    bookListQueryDefaultBackend sampleStore 2026 [("search", "farm")] =
      Except.error ["search"] ∧
    bookListQueryDefaultBackend sampleStore 2026 [("search", "orwell")] =
      Except.error ["search"] ∧
    bookListQueryDefaultBackend sampleStore 2026 [] =
      Except.ok [nineteenEightyFour, animalFarm, harryPotter] :=
  ⟨rfl, rfl, rfl⟩

theorem bookFieldCmp_ne_gt_iff (A : List Author) (f : BookField) (a b : Book) :
    bookFieldCmp A f a b ≠ Ordering.gt ↔ bookKeyLe A f a b := by
  cases f with
  | title =>
    exact (not_congr (strCmp_gt_iff a.title b.title)).trans not_lt
  | publication_year =>
    exact (not_congr (cmp_eq_gt_iff a.publication_year b.publication_year)).trans not_lt
  | author_name =>
    exact (not_congr (strCmp_gt_iff (authorNameD A a) (authorNameD A b))).trans not_lt
  | id =>
    exact (not_congr (cmp_eq_gt_iff a.id b.id)).trans not_lt

theorem bookFieldCmp_eq_iff (A : List Author) (f : BookField) (a b : Book) :
    bookFieldCmp A f a b = Ordering.eq ↔ bookKeyEq A f a b := by
  cases f with
  | title => exact strCmp_eq_iff a.title b.title
  | publication_year => exact cmp_eq_eq_iff a.publication_year b.publication_year
  | author_name => exact strCmp_eq_iff (authorNameD A a) (authorNameD A b)
  | id => exact cmp_eq_eq_iff a.id b.id

/-- Unfolding the two-key order `[k1 asc, k2 desc]` on a pair of records. -/
theorem keysLe_pair_elim {φ α : Type} (fcmp : φ → α → α → Ordering)
    (f1 f2 : φ) (a b : α)
    (h : keysLe fcmp [⟨f1, false⟩, ⟨f2, true⟩] a b) :
    fcmp f1 a b ≠ Ordering.gt ∧
      (fcmp f1 a b = Ordering.eq → fcmp f2 b a ≠ Ordering.gt) := by
  unfold keysLe at h
  have hred : keysCmp fcmp [⟨f1, false⟩, ⟨f2, true⟩] a b =
      match fcmp f1 a b with
      | Ordering.eq =>
        match fcmp f2 b a with
        | Ordering.eq => Ordering.eq
        | o => o
      | o => o := rfl
  rw [hred] at h
  cases h1 : fcmp f1 a b with
  | lt =>
    constructor
    · intro hc
      cases hc
    · intro hc
      cases hc
  | gt =>
    rw [h1] at h
    exact absurd rfl h
  | eq =>
    constructor
    · intro hc
      cases hc
    · intro _ hc2
      rw [h1, hc2] at h
      exact h rfl

/-- C5: for an ordering specification that resolves to the two keys
`[k1 asc, k2 desc]`, adjacent returned records satisfy `a.k1 ≤ b.k1`, and
`a.k2 ≥ b.k2` whenever `a.k1 = b.k1`; string keys compare case-sensitively
lexicographically, numeric keys by value (the reading of `bookKeyLe`). -/
theorem C5_ordering_law (s : Store) (cy : Int)
    (params : List (String × String)) (f1 f2 : BookField) (r : List Book)
    (hk : orderingKeys bookFieldOfName bookOrderingFields bookDefaultOrdering
        (getParam params "ordering") = some [⟨f1, false⟩, ⟨f2, true⟩])
    (hq : bookListQuery s cy params = .ok r) :
    ∀ (i : Nat) (h : i + 1 < r.length),
      bookKeyLe s.authors f1 (r.get ⟨i, Nat.lt_of_succ_lt h⟩)
        (r.get ⟨i + 1, h⟩) ∧
      (bookKeyEq s.authors f1 (r.get ⟨i, Nat.lt_of_succ_lt h⟩)
          (r.get ⟨i + 1, h⟩) →
        bookKeyLe s.authors f2 (r.get ⟨i + 1, h⟩)
          (r.get ⟨i, Nat.lt_of_succ_lt h⟩)) := by
  obtain ⟨f, ks, hv, hk2, hr⟩ := bookListQuery_ok_elim s cy params r hq
  rw [hk] at hk2
  have hks : ks = [⟨f1, false⟩, ⟨f2, true⟩] := by
    simpa using hk2.symm
  subst hks
  intro i h
  have hsorted : r.Sorted (keysLe (bookFieldCmp s.authors)
      [⟨f1, false⟩, ⟨f2, true⟩]) := by
    rw [hr]
    exact order_by_sorted (bookFieldCmp_laws s.authors) _ _
  have hpair := hsorted.rel_get_of_lt
    (show (⟨i, Nat.lt_of_succ_lt h⟩ : Fin r.length) < ⟨i + 1, h⟩ from
      Nat.lt_succ_self i)
  have helim := keysLe_pair_elim (bookFieldCmp s.authors) f1 f2
    (r.get ⟨i, Nat.lt_of_succ_lt h⟩) (r.get ⟨i + 1, h⟩) hpair
  constructor
  · exact (bookFieldCmp_ne_gt_iff s.authors f1 _ _).mp helim.1
  · intro heq
    exact (bookFieldCmp_ne_gt_iff s.authors f2 _ _).mp
      (helim.2 ((bookFieldCmp_eq_iff s.authors f1 _ _).mpr heq))

/-- C5 witness: `ordering=author__name,-publication_year` on the sample
store, checked at the first adjacent pair of the returned sequence. -/
theorem C5_witness :
    bookKeyLe sampleStore.authors BookField.author_name
      (([nineteenEightyFour, animalFarm, harryPotter] : List Book).get
        ⟨0, by decide⟩)
      (([nineteenEightyFour, animalFarm, harryPotter] : List Book).get
        ⟨1, by decide⟩) ∧
    (bookKeyEq sampleStore.authors BookField.author_name
        (([nineteenEightyFour, animalFarm, harryPotter] : List Book).get
          ⟨0, by decide⟩)
        (([nineteenEightyFour, animalFarm, harryPotter] : List Book).get
          ⟨1, by decide⟩) →
      bookKeyLe sampleStore.authors BookField.publication_year
        (([nineteenEightyFour, animalFarm, harryPotter] : List Book).get
          ⟨1, by decide⟩)
        (([nineteenEightyFour, animalFarm, harryPotter] : List Book).get
          ⟨0, by decide⟩)) :=
  C5_ordering_law sampleStore 2026
    [("ordering", "author__name,-publication_year")]
    BookField.author_name BookField.publication_year
    [nineteenEightyFour, animalFarm, harryPotter] rfl rfl 0 (by decide)

/-- C6: when `recent_books=true` resolves, every returned book satisfies
`publication_year ≥ current_year − 10`, AND-combined with any
`year_from`/`year_to` bounds of the same request; with no search term the
result is exactly the snapshot records satisfying the whole AND-composed
predicate set (the range intersection wins implicitly, with no conflict
detection). -/
theorem C6_recent_books_composition (s : Store) (cy : Int)
    (params : List (String × String)) (f : ResolvedBookFilter) (r : List Book)
    (hv : validateBookParams s.authors params = .ok f)
    (hrb : f.recent_books = some true)
    (hq : bookListQuery s cy params = .ok r) :
    (∀ b, b ∈ r → cy - 10 ≤ b.publication_year ∧
      (∀ y, f.year_from = some y → y ≤ b.publication_year) ∧
      (∀ y, f.year_to = some y → b.publication_year ≤ y)) ∧
    (getParam params "search" = none →
      ∀ b, b ∈ r ↔ b ∈ s.books ∧ BookPredHolds s.authors cy f b) := by
  constructor
  · intro b hb
    have h := (bookListQuery_mem_sound s cy params f r hv hq b hb).2
    exact ⟨h.2.2.2.2.2.2.1 hrb, h.2.2.2.2.1, h.2.2.2.2.2.1⟩
  · intro hs b
    exact bookListQuery_mem_no_search s cy params f r hv hs hq b

/-- C6 witness: `recent_books=true&year_to=2025` in 2026 on the store with a
2020 book returns exactly that book, inside both ranges. -/
theorem C6_witness :
    2026 - 10 ≤ recentBook.publication_year ∧
    (∀ y, (⟨none, none, none, none, none, some 2025, some true, none, none,
        none, none, none, none, none⟩ : ResolvedBookFilter).year_from =
        some y → y ≤ recentBook.publication_year) ∧
    (∀ y, (⟨none, none, none, none, none, some 2025, some true, none, none,
        none, none, none, none, none⟩ : ResolvedBookFilter).year_to =
        some y → recentBook.publication_year ≤ y) :=
  (C6_recent_books_composition recentStore 2026
      [("recent_books", "true"), ("year_to", "2025")]
      ⟨none, none, none, none, none, some 2025, some true, none, none,
        none, none, none, none, none⟩
      [recentBook] rfl rfl rfl).1 recentBook (by decide)

/-- C7: a create or update whose `publication_year` exceeds the current
calendar year is rejected at validation time with an error naming
`publication_year`, leaving the store unchanged; every book accepted
through the write boundary satisfies `publication_year ≤ current year`. -/
theorem C7_no_future_publication_year (s : Store) (cy : Int)
    (inp : BookInput) (bid : Nat) :
    (inp.publication_year > cy →
      (∃ errs, (bookCreate s cy inp).1 = .error errs ∧
        "publication_year" ∈ errs) ∧
      (bookCreate s cy inp).2 = s ∧
      (bookUpdate s cy bid inp).2 = s ∧
      (∀ b, ¬ (bookUpdate s cy bid inp).1 = .ok b) ∧
      (∀ bk, s.books.find? (fun b => b.id == bid) = some bk →
        ∃ errs, (bookUpdate s cy bid inp).1 = .error errs ∧
          "publication_year" ∈ errs)) ∧
    (∀ b s2, bookCreate s cy inp = (.ok b, s2) →
      b.publication_year ≤ cy) ∧
    (∀ b s2, bookUpdate s cy bid inp = (.ok b, s2) →
      b.publication_year ≤ cy) := by
  have hpy : inp.publication_year > cy →
      "publication_year" ∈ bookSerializerErrors s.authors cy inp := by
    intro hf
    simp only [bookSerializerErrors, validate_publication_year, if_pos hf]
    simp
  have hpyne : inp.publication_year > cy →
      (bookSerializerErrors s.authors cy inp).isEmpty = false := by
    intro hf
    have hm := hpy hf
    cases hE : bookSerializerErrors s.authors cy inp with
    | nil => rw [hE] at hm; cases hm
    | cons a l => rfl
  have hok : (bookSerializerErrors s.authors cy inp).isEmpty = true →
      inp.publication_year ≤ cy := by
    intro hE
    by_contra hc
    rw [hpyne (lt_of_not_le hc)] at hE
    cases hE
  refine ⟨?_, ?_, ?_⟩
  · intro hf
    have hne := hpyne hf
    refine ⟨⟨bookSerializerErrors s.authors cy inp, ?_, hpy hf⟩, ?_, ?_, ?_, ?_⟩
    · simp only [bookCreate, hne, Bool.false_eq_true, if_false]
    · simp only [bookCreate, hne, Bool.false_eq_true, if_false]
    · unfold bookUpdate
      cases s.books.find? (fun b => b.id == bid) with
      | none => rfl
      | some bk =>
        simp only [hne, Bool.false_eq_true, if_false]
    · intro b hb
      unfold bookUpdate at hb
      cases hfind : s.books.find? (fun b => b.id == bid) with
      | none =>
        rw [hfind] at hb
        cases hb
      | some bk =>
        rw [hfind] at hb
        simp only [hne, Bool.false_eq_true, if_false] at hb
        cases hb
    · intro bk hfind
      refine ⟨bookSerializerErrors s.authors cy inp, ?_, hpy hf⟩
      unfold bookUpdate
      rw [hfind]
      simp only [hne, Bool.false_eq_true, if_false]
  · intro b s2 hb
    cases hE : (bookSerializerErrors s.authors cy inp).isEmpty with
    | false =>
      simp only [bookCreate, hE, Bool.false_eq_true, if_false,
        Prod.mk.injEq] at hb
      cases hb.1
    | true =>
      simp only [bookCreate, hE, if_true, Prod.mk.injEq,
        Except.ok.injEq] at hb
      rw [← hb.1]
      exact hok hE
  · intro b s2 hb
    unfold bookUpdate at hb
    cases hfind : s.books.find? (fun b => b.id == bid) with
    | none =>
      rw [hfind] at hb
      simp only [Prod.mk.injEq] at hb
      cases hb.1
    | some bk =>
      rw [hfind] at hb
      cases hE : (bookSerializerErrors s.authors cy inp).isEmpty with
      | false =>
        simp only [hE, Bool.false_eq_true, if_false, Prod.mk.injEq] at hb
        cases hb.1
      | true =>
        simp only [hE, if_true, Prod.mk.injEq, Except.ok.injEq] at hb
        rw [← hb.1]
        exact hok hE

/-- C7 witness: in 2026 a 2027 book is rejected by create and update with
the store unchanged, and a 2020 create is accepted with a year within
bound. -/
theorem C7_witness :
    ((∃ errs, (bookCreate sampleStore 2026 ⟨"Future", 2027, 1⟩).1 =
        .error errs ∧ "publication_year" ∈ errs) ∧
      (bookCreate sampleStore 2026 ⟨"Future", 2027, 1⟩).2 = sampleStore ∧
      (bookUpdate sampleStore 2026 1 ⟨"Future", 2027, 1⟩).2 = sampleStore ∧
      (∀ b, ¬ (bookUpdate sampleStore 2026 1 ⟨"Future", 2027, 1⟩).1 =
        .ok b) ∧
      (∀ bk, sampleStore.books.find? (fun b => b.id == 1) = some bk →
        ∃ errs, (bookUpdate sampleStore 2026 1 ⟨"Future", 2027, 1⟩).1 =
          .error errs ∧ "publication_year" ∈ errs)) ∧
    (∀ b s2, bookCreate sampleStore 2026 ⟨"Future", 2027, 1⟩ = (.ok b, s2) →
      b.publication_year ≤ 2026) ∧
    (∀ b s2, bookUpdate sampleStore 2026 1 ⟨"Future", 2027, 1⟩ =
      (.ok b, s2) → b.publication_year ≤ 2026) :=
  ⟨(C7_no_future_publication_year sampleStore 2026 ⟨"Future", 2027, 1⟩ 1).1
      (by decide),
    (C7_no_future_publication_year sampleStore 2026 ⟨"Future", 2027, 1⟩ 1).2.1,
    (C7_no_future_publication_year sampleStore 2026 ⟨"Future", 2027, 1⟩ 1).2.2⟩

theorem keysCmp_single {φ α : Type} (fcmp : φ → α → α → Ordering)
    (k : SortKey φ) (a b : α) :
    keysCmp fcmp [k] a b = dirCmp fcmp k a b := by
  unfold keysCmp
  cases dirCmp fcmp k a b <;> rfl

/-- C8: a list request is read-only (the store comes back unchanged),
re-running it against the unchanged store returns the identical ordered
output, and records tied on every sort key appear in the deterministic
snapshot order of the filtered sequence (the stable sort breaks ties
repeatably). -/
theorem C8_idempotent_pure_stable (s : Store) (cy : Int)
    (params : List (String × String)) (offset limit : Nat) :
    (runBookListQuery s cy params offset limit).2 = s ∧
    (runBookListQuery (runBookListQuery s cy params offset limit).2 cy params
        offset limit).1 = (runBookListQuery s cy params offset limit).1 ∧
    (∀ (f : ResolvedBookFilter) (ks : List (SortKey BookField))
        (r : List Book) (a b : Book),
        validateBookParams s.authors params = .ok f →
        orderingKeys bookFieldOfName bookOrderingFields bookDefaultOrdering
          (getParam params "ordering") = some ks →
        bookListQuery s cy params = .ok r →
        keysCmp (bookFieldCmp s.authors) ks a b = Ordering.eq →
        List.Sublist [a, b]
          (searchBooks s.authors (getParam params "search")
            (s.books.filter (bookMatches s.authors cy f))) →
        List.Sublist [a, b] r) := by
  refine ⟨rfl, rfl, ?_⟩
  intro f ks r a b hv hk hq htie hsub
  obtain ⟨f2, ks2, hv2, hk2, hr⟩ := bookListQuery_ok_elim s cy params r hq
  rw [hv] at hv2
  have hf : f = f2 := by
    simpa using hv2
  subst hf
  rw [hk] at hk2
  have hks : ks = ks2 := by
    simpa using hk2
  subst hks
  rw [hr]
  exact order_by_stable ks _ a b htie hsub

/-- C8 witness: with `ordering=author__name`, the two Orwell books are tied
on the sort key and keep their snapshot order in the output. -/
theorem C8_witness :
    List.Sublist [animalFarm, nineteenEightyFour]
      [animalFarm, nineteenEightyFour, harryPotter] :=
  (C8_idempotent_pure_stable sampleStore 2026
      [("ordering", "author__name")] 0 10).2.2
    ⟨none, none, none, none, none, none, none, none, none, none, none,
      none, none, none⟩
    [⟨BookField.author_name, false⟩]
    [animalFarm, nineteenEightyFour, harryPotter]
    animalFarm nineteenEightyFour rfl rfl rfl rfl
    (List.Sublist.cons₂ _ (List.Sublist.cons₂ _
      (List.Sublist.cons _ List.Sublist.slnil)))

/-- C9: the `or`-fallback expression of `get_books_by_author`
(`books_via_filter or books_via_related`) denotes, for every store state and
author, exactly the set the explicit filter alone denotes: both operands
query the same foreign key, so the fallback branch is dead logic. -/
theorem C9_or_fallback_dead (s : RelStore) (a : RelAuthor) :
    get_books_by_author_value s a = rel_books_via_filter s a := by
  unfold get_books_by_author_value
  have hEq : rel_books_via_related s a = rel_books_via_filter s a := by
    unfold rel_books_via_related rel_books_via_filter
    apply List.filter_congr
    intro b _
    by_cases hx : b.author = a.id
    · simp [hx]
    · rw [beq_eq_false_iff_ne.mpr (fun h => hx h.symm),
        beq_eq_false_iff_ne.mpr hx]
  rw [hEq, ite_self]

/-- C10: with no ordering parameter, the book list is sorted ascending by
title and the author list ascending by name (the views' default
`ordering`). -/
theorem C10_default_ordering :
    (∀ (s : Store) (cy : Int) (params : List (String × String))
        (r : List Book),
        getParam params "ordering" = none →
        bookListQuery s cy params = .ok r →
        ∀ (i : Nat) (h : i + 1 < r.length),
          (r.get ⟨i, Nat.lt_of_succ_lt h⟩).title ≤
            (r.get ⟨i + 1, h⟩).title) ∧
    (∀ (s : Store) (params : List (String × String)) (r : List Author),
        getParam params "ordering" = none →
        authorListQuery s params = .ok r →
        ∀ (i : Nat) (h : i + 1 < r.length),
          (r.get ⟨i, Nat.lt_of_succ_lt h⟩).name ≤
            (r.get ⟨i + 1, h⟩).name) := by
  constructor
  · intro s cy params r hord hq i h
    obtain ⟨f, ks, hv, hk, hr⟩ := bookListQuery_ok_elim s cy params r hq
    rw [hord] at hk
    have hks : ks = bookDefaultOrdering := by
      simpa [orderingKeys] using hk.symm
    subst hks
    have hsorted : r.Sorted (keysLe (bookFieldCmp s.authors)
        bookDefaultOrdering) := by
      rw [hr]
      exact order_by_sorted (bookFieldCmp_laws s.authors) _ _
    have hpair := hsorted.rel_get_of_lt
      (show (⟨i, Nat.lt_of_succ_lt h⟩ : Fin r.length) < ⟨i + 1, h⟩ from
        Nat.lt_succ_self i)
    unfold keysLe bookDefaultOrdering at hpair
    rw [keysCmp_single] at hpair
    exact (bookFieldCmp_ne_gt_iff s.authors BookField.title _ _).mp hpair
  · intro s params r hord hq i h
    obtain ⟨ks, hk, hr⟩ := authorListQuery_ok_elim s params r hq
    rw [hord] at hk
    have hks : ks = authorDefaultOrdering := by
      simpa [orderingKeys] using hk.symm
    subst hks
    have hsorted : r.Sorted (keysLe authorFieldCmp authorDefaultOrdering) := by
      rw [hr]
      exact order_by_sorted authorFieldCmp_laws _ _
    have hpair := hsorted.rel_get_of_lt
      (show (⟨i, Nat.lt_of_succ_lt h⟩ : Fin r.length) < ⟨i + 1, h⟩ from
        Nat.lt_succ_self i)
    unfold keysLe authorDefaultOrdering at hpair
    rw [keysCmp_single] at hpair
    exact not_lt.mp ((not_congr (strCmp_gt_iff _ _)).mp hpair)

/-- C10 witness: the unordered book query on the sample store comes back
title-sorted (`1984` before `Animal Farm`), the unordered author query
name-sorted (`George Orwell` before `J.K. Rowling`). -/
theorem C10_witness :
    (([nineteenEightyFour, animalFarm, harryPotter] : List Book).get
        ⟨0, by decide⟩).title ≤
      (([nineteenEightyFour, animalFarm, harryPotter] : List Book).get
        ⟨1, by decide⟩).title ∧
    (([orwell, rowling] : List Author).get ⟨0, by decide⟩).name ≤
      (([orwell, rowling] : List Author).get ⟨1, by decide⟩).name :=
  ⟨C10_default_ordering.1 sampleStore 2026 []
      [nineteenEightyFour, animalFarm, harryPotter] rfl rfl 0 (by decide),
    C10_default_ordering.2 sampleStore [] [orwell, rowling] rfl rfl 0
      (by decide)⟩
